import Mathlib

/-!
Verification of the station signal-control and hacking-session engine of
roleHaven (src/managers/lanternHacking.js).

The JavaScript source is shallowly embedded: each manager function becomes a
pure Lean function, the database (db/connectors/lanternhack, absent from src)
becomes explicit state passing over lists of records, and the random draws of
the source become an explicit oracle record.  JavaScript numbers are modelled
as `Int` where the source only ever stores integers, and the one fractional
computation (`(threshold - difference) * 0.2`) is modelled over `Rat`: for
integer inputs in play the IEEE-754 double computation of the source rounds to
the same `Math.ceil` result as exact rational arithmetic, because the exact
value `(50 - d) / 5` is either an integer (in which case the double product is
exact) or at distance at least 1/5 from every integer, far beyond the rounding
error of one double multiplication.
-/

namespace RoleHaven

/-- Modelled from the spec: the app configuration constants used by the signal
algorithm (`config/defaults/config` is not under src/).  The spec fixes
default `D = 100`, threshold `T = 50`, max single-shot change `M = 10` and
proportional coefficient `P = 0.2`. -/
def signalDefaultValue : Int := 100

/-- Modelled from the spec: threshold `T = 50`. -/
def signalThreshold : Int := 50

/-- Modelled from the spec: max single-shot change `M = 10`. -/
def signalMaxChange : Rat := 10

/-- Modelled from the spec: proportional coefficient `P = 0.2`. -/
def signalChangePercentage : Rat := 1 / 5

/-- Modelled from the spec: the configured tries budget
(`appConfig.hackingTriesAmount`, not under src/); the spec leaves the value
open, only calling it "a configured budget". -/
def hackingTriesAmount : Int := 3

/-- A station record, per the Station Store schema `{stationId, signalValue,
isActive}`. -/
structure Station where
  stationId : Nat
  signalValue : Int
  isActive : Bool
deriving DecidableEq

/-- The error kinds produced by `objects/error/errorCreator` as used in
`managers/lanternHacking.js` (DoesNotExist, Internal, External, InvalidData)
together with the storage failures of the db layer. -/
inductive ErrorType
  | notFound
  | storage
  | internalErr
  | external
  | invalidData
  | notAllowed
deriving DecidableEq

/-- An error value: its kind plus the `name` argument the source passes to the
error constructor. -/
structure Err where
  errorType : ErrorType
  name : String
deriving DecidableEq

/-- `signalChange` as computed in `updateSignalValue`
(src/managers/lanternHacking.js:200-208): the proportional change
`(signalThreshold - |signalValue - signalDefaultValue|) * signalChangePercentage`,
overridden to `signalMaxChange` when boosting from below the default or
suppressing from above it. -/
def signalChangeOf (signalValue : Int) (boostingSignal : Bool) : Rat :=
  let difference : Int := |signalValue - signalDefaultValue|
  let base : Rat := ((signalThreshold : Rat) - (difference : Rat)) * signalChangePercentage
  if boostingSignal = true ∧ signalValue < signalDefaultValue then signalMaxChange
  else if boostingSignal = false ∧ signalValue > signalDefaultValue then signalMaxChange
  else base

/-- `setNewValue` (src/managers/lanternHacking.js:159-168): `Math.ceil` the
candidate value, then clamp it into
`[signalDefaultValue - signalThreshold, signalDefaultValue + signalThreshold]`. -/
def setNewValueCalc (signalValue : Rat) : Int :=
  let minValue := signalDefaultValue - signalThreshold
  let maxValue := signalDefaultValue + signalThreshold
  let ceilSignalValue := Int.ceil signalValue
  if ceilSignalValue > maxValue then maxValue
  else if ceilSignalValue < minValue then minValue
  else ceilSignalValue

/-- The pure value computation of `updateSignalValue`
(src/managers/lanternHacking.js:200-210): the new signal value written for a
station currently at `signalValue` when the adjustment direction is
`boostingSignal`. -/
def updateSignalValueCalc (signalValue : Int) (boostingSignal : Bool) : Int :=
  let signalChange := signalChangeOf signalValue boostingSignal
  setNewValueCalc ((signalValue : Rat) + (if boostingSignal then signalChange else -|signalChange|))

/-- The adjustment formula exactly as the specification words it (spec §4.1 /
claim C3), kept separate from the source-derived `updateSignalValueCalc` so the
two can be compared: `clamp(ceil(v + delta), 50, 150)` where
`delta = +effective` if boosting and `-|effective|` otherwise, and
`effective = 10` when `(boosting ∧ v < 100) ∨ (¬boosting ∧ v > 100)`, else
`(50 - |v - 100|) * 0.2`. -/
def adjustSpec (v : Int) (boosting : Bool) : Int :=
  let effective : Rat :=
    if (boosting = true ∧ v < 100) ∨ (boosting = false ∧ v > 100) then 10
    else ((50 : Rat) - |(v : Rat) - 100|) * (1 / 5)
  let delta : Rat := if boosting then effective else -|effective|
  max 50 (min 150 (Int.ceil ((v : Rat) + delta)))

/-- The lantern round record as read by `resetStations`
(`dbLanternHack.getLanternRound`); only its `isActive` flag is consulted. -/
structure LanternRound where
  isActive : Bool
deriving DecidableEq

/-- The configuration consulted by `resetStations`' guard:
whether `appConfig.mode === appConfig.Modes.TEST`, and
`appConfig.signalResetTimeout` (also the period handed to `setInterval`). -/
structure DecayConfig where
  modeIsTest : Bool
  signalResetTimeout : Nat
deriving DecidableEq

/-- The per-station body of `resetStations`' `forEach`
(src/managers/lanternHacking.js:88-127): leave a station at the default value
alone, otherwise move its `signalValue` exactly one unit toward
`signalDefaultValue`. -/
def decayStation (station : Station) : Station :=
  if station.signalValue ≠ signalDefaultValue then
    if station.signalValue > signalDefaultValue then
      { station with signalValue := station.signalValue - 1 }
    else
      { station with signalValue := station.signalValue + 1 }
  else station

/-- `resetStations` (src/managers/lanternHacking.js:63-132) as a function from
the stored stations to the stored stations.  The guard is transcribed exactly
as written in the source: the tick returns immediately when
`appConfig.mode === appConfig.Modes.TEST || appConfig.signalResetTimeout !== 0`,
and otherwise when the round is not active; only then does it decay every
station.  (Database-failure injection is omitted here: a failed round or
station read also leaves every station unchanged.) -/
def resetStations (cfg : DecayConfig) (round : LanternRound) (stations : List Station) :
    List Station :=
  if cfg.modeIsTest = true ∨ cfg.signalResetTimeout ≠ 0 then stations
  else if round.isActive = false then stations
  else stations.map decayStation

/-- A positional hint `{index, character}` committed for a drawn candidate
(src/managers/lanternHacking.js:275). -/
structure PasswordHint where
  index : Nat
  character : Char
deriving DecidableEq

/-- One entry of a session's `gameUsers` list as built by `createLanternHack`
(src/managers/lanternHacking.js:267-280): identity label, the committed
password, its hint, and the `isCorrect` flag (absent in JavaScript until set;
modelled as a `Bool` that is `false` until line 280 sets it on the first
entry). -/
structure GameUserEntry where
  userName : String
  password : String
  passwordHint : PasswordHint
  isCorrect : Bool
deriving DecidableEq

/-- A hack session record as persisted by `dbLanternHack.updateLanternHack`:
owner, station, drawn game users and the remaining tries. -/
structure LanternHack where
  owner : String
  stationId : Nat
  gameUsers : List GameUserEntry
  triesLeft : Int
deriving DecidableEq

/-- A candidate-pool record (`dbLanternHack.getGameUsers`): an identity label
and its list of candidate passwords. -/
structure GameUser where
  userName : String
  passwords : List String
deriving DecidableEq

/-- Modelled from the spec: the session store of the Store collaborator
(`db/connectors/lanternhack` is not under src/), an owner-keyed table of
sessions, upserted by owner.  `getLanternHackDb` is `Store.getSession(owner)`. -/
def getLanternHackDb (owner : String) (store : List LanternHack) : Option LanternHack :=
  store.find? (fun h => h.owner == owner)

/-- Modelled from the spec: `Store.upsertSession(session)` — upsert keyed by
`owner`, always overwriting rather than appending. -/
def updateLanternHackDb (hack : LanternHack) (store : List LanternHack) : List LanternHack :=
  hack :: store.filter (fun h => !(h.owner == hack.owner))

/-- Modelled from the spec: `Store.deleteSession(owner)`. -/
def removeLanternHackDb (owner : String) (store : List LanternHack) : List LanternHack :=
  store.filter (fun h => !(h.owner == owner))

/-- Modelled from the spec: `dbLanternHack.lowerHackTries(owner)` — decrement
the stored session's `triesLeft` by exactly 1 and hand the lowered record to
the callback. -/
def lowerHackTriesDb (owner : String) (store : List LanternHack) : List LanternHack :=
  store.map (fun h => if h.owner == owner then { h with triesLeft := h.triesLeft - 1 } else h)

/-- The random draws of the engine, made explicit: `textTools.shuffleArray` on
the candidate pool and on the fake-password list, `Math.floor(Math.random() *
passwords.length)` for the password pick, and `Math.floor(Math.random() *
password.length)` for the hint position.  A theorem quantifying over `Rand`
holds for every outcome of the source's randomness. -/
structure Rand where
  shuffleGameUsers : List GameUser → List GameUser
  pwIndex : GameUser → Nat
  hintIndex : String → Nat
  shuffleFake : List String → List String

/-- JavaScript `String.prototype.toLowerCase`, character-wise (adequate for
the ASCII passwords of the engine). -/
def jsToLower (s : String) : String := String.mk (s.data.map Char.toLower)

/-- JavaScript `String.prototype.indexOf` / `Array.prototype.indexOf` over
characters: the index of the first occurrence, `-1` when absent. -/
def jsIndexOf (chars : List Char) (c : Char) : Int :=
  match chars.findIdx? (fun x => x == c) with
  | some i => (i : Int)
  | none => -1

/-- The match count computed on a failed try
(src/managers/lanternHacking.js:401-402):
`Array.from(password.toLowerCase())` filtered to the characters whose first
occurrence in the correct password equals their first occurrence in the
lowercased guess. -/
def matchesAmount (password correctPassword : String) : Nat :=
  let sentPassword := (jsToLower password).toList
  (sentPassword.filter
    (fun ch => jsIndexOf correctPassword.toList ch == jsIndexOf sentPassword ch)).length

/-- The partial-match count exactly as the specification words it (claim C1):
the number of character positions `i` (0-indexed, bounded by the shorter of
the two strings) where `guess[i] == correctPassword[i]`.  Kept separate from
the source-derived `matchesAmount` so the two can be compared. -/
def positionalMatchCount (guess correctPassword : String) : Nat :=
  ((guess.toList.zip correctPassword.toList).filter (fun p => p.1 == p.2)).length

deriving instance DecidableEq for Except

/-- The outcome of one `dbLanternHack.getStation` read inside
`updateSignalValue`, together with the injected failures of the write and the
external-sync configuration (`appConfig.hackingApiHost` / `hackingApiKey`
present or not). -/
structure SignalEnv where
  getStationResult : Except Err Station
  writeFails : Bool
  hackingApiHost : Bool
  hackingApiKey : Bool
deriving DecidableEq

/-- What one `updateSignalValue` call did: the value persisted to the Station
Store (if the write happened) and the outcome delivered to the callback.  The
`ok` payload records the persisted/pushed `boost` value. -/
structure SignalOutcome where
  written : Option Int
  result : Except Err Int
deriving DecidableEq

/-- `updateSignalValue` (src/managers/lanternHacking.js:142-213): read the
station, compute the new value, write it, then report an `Internal` error when
the external-sync host or key is missing — after the write, which is not
rolled back. -/
def updateSignalValue (env : SignalEnv) (boostingSignal : Bool) : SignalOutcome :=
  match env.getStationResult with
  | .error e => { written := none, result := .error e }
  | .ok station =>
    let ceilSignalValue := updateSignalValueCalc station.signalValue boostingSignal
    if env.writeFails then
      { written := none, result := .error { errorType := .storage, name := "updateSignalValue" } }
    else if env.hackingApiHost && env.hackingApiKey then
      { written := some ceilSignalValue, result := .ok ceilSignalValue }
    else
      { written := some ceilSignalValue,
        result := .error { errorType := .internalErr, name := "hacking api host or key not set " } }

/-- The per-candidate closure of `createLanternHack`'s `map`
(src/managers/lanternHacking.js:267-277): commit one random password and one
random hint position for a drawn candidate.  (JavaScript `charAt` out of range
yields the empty string; that corner, reachable only for an empty committed
password, is modelled with a default character.) -/
def drawnGameUser (r : Rand) (gameUser : GameUser) : GameUserEntry :=
  let password := gameUser.passwords.getD (r.pwIndex gameUser) ""
  let randomIndex := r.hintIndex password
  { userName := gameUser.userName
    password := password
    passwordHint := { index := randomIndex
                      character := password.toList.getD randomIndex ' ' }
    isCorrect := false }

/-- `createLanternHack` (src/managers/lanternHacking.js:253-299): error
`DoesNotExist` when the station's pool has fewer than 1 candidate; otherwise
shuffle the pool, keep the first 2, commit the drawn candidates' passwords and
hints, flag the first entry `isCorrect`, and upsert the session. -/
def createLanternHack (r : Rand) (stationId : Nat) (owner : String) (triesLeft : Int)
    (gameUsersDb : List GameUser) (store : List LanternHack) :
    Except Err (LanternHack × List LanternHack) :=
  if gameUsersDb.length < 1 then
    .error { errorType := .notFound, name := "game users" }
  else
    let drawn := (r.shuffleGameUsers gameUsersDb).take 2
    let entries := drawn.map (drawnGameUser r)
    let entries := match entries with
      | [] => []
      | first :: rest => { first with isCorrect := true } :: rest
    let hack : LanternHack :=
      { owner := owner, stationId := stationId, gameUsers := entries, triesLeft := triesLeft }
    .ok (hack, updateLanternHackDb hack store)

/-- The client-visible payload built by `createHackData`
(src/managers/lanternHacking.js:220-244).  The source also copies
`correctUser.passwordType`, a field no code path ever sets (it is `undefined`
in every engine-created session); it is omitted here. -/
structure HackPayload where
  passwords : List String
  triesLeft : Int
  userName : String
  passwordHint : PasswordHint
  stationId : Nat
deriving DecidableEq

/-- `createHackData` (src/managers/lanternHacking.js:220-244): shuffle the
fake-password pool, keep the first 13, append the session's committed
passwords (no de-duplication), and expose the correct candidate's identity and
hint.  (The fake-password read failure is not injected here; a session whose
`gameUsers` carries no `isCorrect` entry would crash in JavaScript and is
modelled as an `Internal` error.) -/
def createHackData (r : Rand) (fakePasswords : List String) (lanternHack : LanternHack) :
    Except Err HackPayload :=
  match lanternHack.gameUsers.find? (fun gameUser => gameUser.isCorrect) with
  | none => .error { errorType := .internalErr, name := "no correct game user" }
  | some correctUser =>
    .ok { passwords := (r.shuffleFake fakePasswords).take 13
            ++ lanternHack.gameUsers.map (fun gameUser => gameUser.password)
          triesLeft := lanternHack.triesLeft
          userName := correctUser.userName
          passwordHint := correctUser.passwordHint
          stationId := lanternHack.stationId }

/-- The injectable storage failures of the session-store calls made by
`manipulateStation`. -/
structure DbFail where
  getHackFails : Bool
  lowerFails : Bool
  removeFails : Bool
deriving DecidableEq

/-- No injected storage failure. -/
def noDbFail : DbFail := { getHackFails := false, lowerFails := false, removeFails := false }

/-- What `manipulateStation` delivers to its callback: a typed error, the
success payload `{success: true, boostingSignal}`, the exhaustion payload
`{success: false, triesLeft}` (no `matches` field), or the failed-try payload
`{success: false, triesLeft, matches: {amount}}`. -/
inductive AttemptResult
  | err (e : Err)
  | success (boostingSignal : Bool)
  | triesEnded (triesLeft : Int)
  | failedTry (triesLeft : Int) (matchesAmount : Nat)
deriving DecidableEq

/-- `manipulateStation` (src/managers/lanternHacking.js:308-417).  The
`objectValidator` presence check is vacuous in this typed model, and the
authenticator (helpers/authenticator, external Authorizer) is passed as its
outcome: an error or the resolved `user.userName`.  On a correct, non-spent
guess the signal is adjusted — any adjustment error is replaced by
`External('wrecking')` and the session is left untouched; on adjustment
success the session is removed.  Otherwise the tries are lowered by one, the
session is removed once the lowered count reaches 0, and a still-live session
answers with the match count. -/
def manipulateStation (password : String) (boostingSignal : Bool)
    (auth : Except Err String) (env : SignalEnv) (dbf : DbFail)
    (store : List LanternHack) : AttemptResult × List LanternHack :=
  match auth with
  | .error e => (.err e, store)
  | .ok owner =>
    if dbf.getHackFails then
      (.err { errorType := .storage, name := "getLanternHack" }, store)
    else
      match getLanternHackDb owner store with
      | none => (.err { errorType := .notFound, name := "lanternHack" }, store)
      | some lanternHack =>
        match lanternHack.gameUsers.find? (fun gameUser => gameUser.isCorrect) with
        | none => (.err { errorType := .internalErr, name := "no correct game user" }, store)
        | some correctUser =>
          if correctUser.password = jsToLower password ∧ lanternHack.triesLeft > 0 then
            match (updateSignalValue env boostingSignal).result with
            | .error _ => (.err { errorType := .external, name := "wrecking" }, store)
            | .ok _ =>
              if dbf.removeFails then
                (.err { errorType := .storage, name := "removeLanternHack" }, store)
              else
                (.success boostingSignal, removeLanternHackDb owner store)
          else
            if dbf.lowerFails then
              (.err { errorType := .storage, name := "lowerHackTries" }, store)
            else
              let loweredHack : LanternHack :=
                { lanternHack with triesLeft := lanternHack.triesLeft - 1 }
              let store1 := lowerHackTriesDb owner store
              if loweredHack.triesLeft ≤ 0 then
                if dbf.removeFails then
                  (.err { errorType := .storage, name := "removeLanternHack" }, store1)
                else
                  (.triesEnded loweredHack.triesLeft, removeLanternHackDb owner store1)
              else
                (.failedTry loweredHack.triesLeft (matchesAmount password correctUser.password),
                  store1)

/-- `getLanternHack` (src/managers/lanternHacking.js:425-503), the manager's
`getOrCreateSession`: reuse the live session when it targets the requested
station, otherwise (no session, or a session for a different station)
regenerate through `createLanternHack` with the configured tries budget, then
build the payload.  The `objectValidator` presence check is vacuous in this
typed model; a `DoesNotExist` from the session read is treated as "no
session". -/
def getLanternHack (r : Rand) (stationId : Nat) (auth : Except Err String)
    (gameUsersDb : List GameUser) (fakePasswords : List String)
    (store : List LanternHack) : Except Err HackPayload × List LanternHack :=
  match auth with
  | .error e => (.error e, store)
  | .ok owner =>
    match getLanternHackDb owner store with
    | some lanternHack =>
      if lanternHack.stationId ≠ stationId then
        match createLanternHack r stationId owner hackingTriesAmount gameUsersDb store with
        | .error e => (.error e, store)
        | .ok (newHack, store1) => (createHackData r fakePasswords newHack, store1)
      else
        (createHackData r fakePasswords lanternHack, store)
    | none =>
      match createLanternHack r stationId owner hackingTriesAmount gameUsersDb store with
      | .error e => (.error e, store)
      | .ok (newHack, store1) => (createHackData r fakePasswords newHack, store1)

/-- A concrete randomness oracle: the identity shuffle, always picking the
first password and the hint position 0. -/
def idRand : Rand :=
  { shuffleGameUsers := id, pwIndex := fun _ => 0, hintIndex := fun _ => 0, shuffleFake := id }

/-- One foreground attempt as fed to `runAttempts`: the guessed password, the
boost direction and the signal environment the attempt runs against. -/
structure AttemptInput where
  password : String
  boostingSignal : Bool
  env : SignalEnv

/-- A sequence of `manipulateStation` calls for one owner, with no injected
session-store failure. -/
def runAttempts (owner : String) (steps : List AttemptInput) (store : List LanternHack) :
    List LanternHack :=
  steps.foldl
    (fun st step => (manipulateStation step.password step.boostingSignal (.ok owner)
      step.env noDbFail st).2) store

/-- The `triesLeft` of the owner's live session, when one exists. -/
def ownerTries (owner : String) (store : List LanternHack) : Option Int :=
  (getLanternHackDb owner store).map (fun h => h.triesLeft)

/-- A concrete one-session fixture: the owner "o" holds a session on station 1
whose correct candidate's password is "ab", with 3 tries left. -/
def sampleCu : GameUserEntry :=
  { userName := "u", password := "ab", passwordHint := { index := 0, character := 'a' },
    isCorrect := true }

/-- The fixture session record. -/
def sampleHack : LanternHack :=
  { owner := "o", stationId := 1, gameUsers := [sampleCu], triesLeft := 3 }

/-- The fixture session store. -/
def sampleStore : List LanternHack := [sampleHack]

/-- The fixture session with a single try left. -/
def exhaustHack : LanternHack :=
  { owner := "o", stationId := 1, gameUsers := [sampleCu], triesLeft := 1 }

/-- A store holding only the one-try fixture session. -/
def exhaustStore : List LanternHack := [exhaustHack]

/-- A signal environment in which everything succeeds. -/
def envOkSample : SignalEnv :=
  { getStationResult := .ok { stationId := 1, signalValue := 100, isActive := true },
    writeFails := false, hackingApiHost := true, hackingApiKey := true }

/-- A signal environment whose station read fails. -/
def envErrSample : SignalEnv :=
  { getStationResult := .error { errorType := .notFound, name := "station" },
    writeFails := false, hackingApiHost := true, hackingApiKey := true }

/-- A signal environment with the external-sync key unconfigured. -/
def envNoKeySample : SignalEnv :=
  { getStationResult := .ok { stationId := 1, signalValue := 100, isActive := true },
    writeFails := false, hackingApiHost := true, hackingApiKey := false }

/-- A concrete candidate-pool entry. -/
def gameUserU : GameUser := { userName := "u", passwords := ["pw"] }

/-- A second concrete candidate-pool entry. -/
def gameUserV : GameUser := { userName := "v", passwords := ["qq"] }

/-- A concrete two-candidate pool. -/
def poolTwo : List GameUser := [gameUserU, gameUserV]

/-- The session `createLanternHack` builds from `poolTwo` under `idRand`. -/
def hackTwo : LanternHack :=
  { owner := "o", stationId := 5,
    gameUsers := [{ userName := "u", password := "pw",
                    passwordHint := { index := 0, character := 'p' }, isCorrect := true },
                  { userName := "v", password := "qq",
                    passwordHint := { index := 0, character := 'q' }, isCorrect := false }],
    triesLeft := 3 }

/-- The session built when the fixture owner switches from station 1 to
station 2 with pool `poolTwo` under `idRand`. -/
def switchedHack : LanternHack :=
  { owner := "o", stationId := 2,
    gameUsers := { drawnGameUser idRand gameUserU with isCorrect := true }
      :: [gameUserV].map (drawnGameUser idRand),
    triesLeft := hackingTriesAmount }

/-! ## Helper lemmas -/

/-- The source's ceil-then-two-sided-comparison in `setNewValue` is the clamp
to `[50, 150]`. -/
theorem setNewValueCalc_eq_clamp (x : ℚ) :
    setNewValueCalc x = max 50 (min 150 (Int.ceil x)) := by
  unfold setNewValueCalc signalDefaultValue signalThreshold
  dsimp only
  split_ifs <;> omega

/-- The source computation of `updateSignalValue` agrees with the
specification's closed-form adjustment formula. -/
theorem updateSignalValueCalc_eq_adjustSpec (v : Int) (b : Bool) :
    updateSignalValueCalc v b = adjustSpec v b := by
  have hchange : signalChangeOf v b =
      (if (b = true ∧ v < 100) ∨ (b = false ∧ v > 100) then (10 : ℚ)
       else ((50 : ℚ) - |(v : ℚ) - 100|) * (1 / 5)) := by
    unfold signalChangeOf signalDefaultValue signalThreshold signalMaxChange
      signalChangePercentage
    dsimp only
    cases b <;> simp only [Bool.false_eq_true, Bool.true_eq_false, false_and, false_or,
      or_false, true_and, and_true, if_false, eq_self_iff_true, and_self, iff_true] <;>
      split_ifs <;> first
      | rfl
      | (push_cast; ring)
  unfold updateSignalValueCalc adjustSpec
  dsimp only
  rw [hchange, setNewValueCalc_eq_clamp]

/-! ## Claim theorems -/

/-- C3: for every persisted station value `v` and boosting flag, `adjust`
computes the new value as `clamp(ceil(v + delta), 50, 150)` with
`delta = +effective` when boosting and `-|effective|` otherwise, where
`effective = 10` when `(boosting ∧ v < 100) ∨ (¬boosting ∧ v > 100)` and
`(50 - |v - 100|) * 0.2` otherwise; in particular `100 ↦ 110` when boosting,
`110 ↦ 100` and `100 ↦ 90` when suppressing, and the full
`updateSignalValue` persists exactly this value. -/
theorem adjust_computes_spec_formula :
    (∀ (v : Int) (boosting : Bool), updateSignalValueCalc v boosting = adjustSpec v boosting) ∧
    updateSignalValueCalc 100 true = 110 ∧
    updateSignalValueCalc 110 false = 100 ∧
    updateSignalValueCalc 100 false = 90 ∧
    (∀ (st : Station) (boosting : Bool),
      (updateSignalValue
        { getStationResult := .ok st, writeFails := false,
          hackingApiHost := true, hackingApiKey := true } boosting).written =
        some (adjustSpec st.signalValue boosting)) := by
  refine ⟨updateSignalValueCalc_eq_adjustSpec, ?_, ?_, ?_, ?_⟩
  · rw [updateSignalValueCalc_eq_adjustSpec]; unfold adjustSpec; norm_num
  · rw [updateSignalValueCalc_eq_adjustSpec]; unfold adjustSpec; norm_num
  · rw [updateSignalValueCalc_eq_adjustSpec]; unfold adjustSpec; norm_num
  · intro st boosting
    unfold updateSignalValue
    simp [updateSignalValueCalc_eq_adjustSpec]

/-- C4: every controller-initiated write stays in `[50, 150]`: the adjustment
value is clamped there for every input, every value `updateSignalValue`
persists lies there, and a decay step keeps an in-range station in range. -/
theorem controller_writes_clamped :
    (∀ (v : Int) (boosting : Bool),
      50 ≤ updateSignalValueCalc v boosting ∧ updateSignalValueCalc v boosting ≤ 150) ∧
    (∀ (env : SignalEnv) (boosting : Bool) (n : Int),
      (updateSignalValue env boosting).written = some n → 50 ≤ n ∧ n ≤ 150) ∧
    (∀ st : Station, 50 ≤ st.signalValue → st.signalValue ≤ 150 →
      50 ≤ (decayStation st).signalValue ∧ (decayStation st).signalValue ≤ 150) := by
  have hbounds : ∀ (v : Int) (b : Bool),
      50 ≤ updateSignalValueCalc v b ∧ updateSignalValueCalc v b ≤ 150 := by
    intro v b
    unfold updateSignalValueCalc
    rw [setNewValueCalc_eq_clamp]
    omega
  refine ⟨hbounds, ?_, ?_⟩
  · intro env b n hwr
    unfold updateSignalValue at hwr
    rcases henv : env.getStationResult with e | st <;> rw [henv] at hwr <;> dsimp only at hwr
    · exact absurd hwr (by simp)
    · split_ifs at hwr <;>
        (have hn : updateSignalValueCalc st.signalValue b = n := Option.some.inj hwr
         have hb := hbounds st.signalValue b
         omega)
  · intro st h1 h2
    unfold decayStation signalDefaultValue
    split_ifs <;> (try dsimp only) <;> omega

/-- C4 witness: the bounds at concrete inputs (adjust at `v = 130` boosting, a
persisted write, and a decay step from `v = 55`). -/
theorem controller_writes_clamped_witness :
    (50 ≤ updateSignalValueCalc 130 true ∧ updateSignalValueCalc 130 true ≤ 150) ∧
    (50 ≤ updateSignalValueCalc 100 true ∧ updateSignalValueCalc 100 true ≤ 150) ∧
    (50 ≤ (decayStation { stationId := 7, signalValue := 55, isActive := true }).signalValue ∧
      (decayStation { stationId := 7, signalValue := 55, isActive := true }).signalValue ≤ 150) :=
  ⟨controller_writes_clamped.1 130 true,
   controller_writes_clamped.2.1
     { getStationResult := .ok { stationId := 1, signalValue := 100, isActive := true },
       writeFails := false, hackingApiHost := true, hackingApiKey := true } true
     (updateSignalValueCalc 100 true) rfl,
   controller_writes_clamped.2.2 { stationId := 7, signalValue := 55, isActive := true }
     (by norm_num) (by norm_num)⟩

/-- C2: the decay tick's administrative guard is inverted in the source.  With
the round active and a station away from the default, a configured interval of
`0` — which the specification calls "decay administratively disabled" — makes
the tick mutate the station (`90 ↦ 91`), while every non-zero interval makes
the tick a permanent no-op; the round-inactive half of the claim does hold. -/
theorem resetStations_guard_inverted :
    resetStations { modeIsTest := false, signalResetTimeout := 0 } { isActive := true }
        [{ stationId := 1, signalValue := 90, isActive := true }] =
      [{ stationId := 1, signalValue := 91, isActive := true }] ∧
    resetStations { modeIsTest := false, signalResetTimeout := 5000 } { isActive := true }
        [{ stationId := 1, signalValue := 90, isActive := true }] =
      [{ stationId := 1, signalValue := 90, isActive := true }] ∧
    resetStations { modeIsTest := false, signalResetTimeout := 0 } { isActive := false }
        [{ stationId := 1, signalValue := 90, isActive := true }] =
      [{ stationId := 1, signalValue := 90, isActive := true }] := by
  refine ⟨?_, ?_, ?_⟩ <;> decide

/-- C8: whenever the decay tick actually executes its body (the source's guard
passes: non-TEST mode, `signalResetTimeout = 0`, round active), every station
at the default value is untouched and every other station moves exactly one
unit toward 100; iterating the tick from `v = 90` yields `min (90 + n) 100`,
i.e. a strict `+1` per tick until 100 and then a fixpoint. -/
theorem decay_moves_toward_default :
    ∀ (cfg : DecayConfig) (round : LanternRound) (stations : List Station),
      cfg.modeIsTest = false → cfg.signalResetTimeout = 0 → round.isActive = true →
      (resetStations cfg round stations = stations.map decayStation) ∧
      (∀ st ∈ stations,
        (st.signalValue = 100 → decayStation st = st) ∧
        (st.signalValue > 100 → (decayStation st).signalValue = st.signalValue - 1) ∧
        (st.signalValue < 100 → (decayStation st).signalValue = st.signalValue + 1)) ∧
      (∀ (sid : Nat) (active : Bool) (n : Nat),
        (fun l => resetStations cfg round l)^[n]
            [{ stationId := sid, signalValue := 90, isActive := active }] =
          [{ stationId := sid, signalValue := min (90 + (n : Int)) 100, isActive := active }]) := by
  intro cfg round stations h1 h2 h3
  have hrun : ∀ l : List Station, resetStations cfg round l = l.map decayStation := by
    intro l
    unfold resetStations
    rw [if_neg, if_neg]
    · rw [h3]; simp
    · rw [h1, h2]; simp
  have hmove : ∀ st : Station,
      (st.signalValue = 100 → decayStation st = st) ∧
      (st.signalValue > 100 → (decayStation st).signalValue = st.signalValue - 1) ∧
      (st.signalValue < 100 → (decayStation st).signalValue = st.signalValue + 1) := by
    intro st
    unfold decayStation signalDefaultValue
    refine ⟨?_, ?_, ?_⟩ <;> intro h <;> split_ifs <;> (try dsimp only) <;> first | rfl | omega
  refine ⟨hrun stations, fun st _ => hmove st, ?_⟩
  intro sid active n
  induction n with
  | zero => simp
  | succ k ih =>
    rw [Function.iterate_succ_apply', ih]
    rw [hrun]
    simp only [List.map_cons, List.map_nil]
    unfold decayStation signalDefaultValue
    dsimp only
    split_ifs <;> simp only [Station.mk.injEq, List.cons.injEq, List.nil_eq, and_true,
      true_and] <;> omega

/-- C8 witness: the tick applied to a concrete station list, the movement laws
at a station at 130, and twelve iterated ticks from 90 reaching exactly 100. -/
theorem decay_moves_toward_default_witness :
    (resetStations { modeIsTest := false, signalResetTimeout := 0 } { isActive := true }
        [{ stationId := 2, signalValue := 130, isActive := false }] =
      [{ stationId := 2, signalValue := 130, isActive := false }].map decayStation) ∧
    ((decayStation { stationId := 2, signalValue := 130, isActive := false }).signalValue =
      130 - 1) ∧
    ((fun l => resetStations { modeIsTest := false, signalResetTimeout := 0 }
          { isActive := true } l)^[12]
        [{ stationId := 1, signalValue := 90, isActive := true }] =
      [{ stationId := 1, signalValue := min (90 + (12 : Int)) 100, isActive := true }]) := by
  have h := decay_moves_toward_default { modeIsTest := false, signalResetTimeout := 0 }
    { isActive := true } [{ stationId := 2, signalValue := 130, isActive := false }]
    rfl rfl rfl
  exact ⟨h.1,
    (h.2.1 { stationId := 2, signalValue := 130, isActive := false } (by simp)).2.1
      (by norm_num),
    h.2.2 1 true 12⟩

/-! ## Session-store helper lemmas -/

/-- Upserting a session makes it the one the owner's lookup finds. -/
theorem getDb_upsert (hack : LanternHack) (store : List LanternHack) :
    getLanternHackDb hack.owner (updateLanternHackDb hack store) = some hack := by
  unfold getLanternHackDb updateLanternHackDb
  simp [List.find?_cons]

/-- Removing the owner's session makes the owner's lookup fail. -/
theorem getDb_remove (owner : String) (store : List LanternHack) :
    getLanternHackDb owner (removeLanternHackDb owner store) = none := by
  unfold getLanternHackDb removeLanternHackDb
  rw [List.find?_eq_none]
  intro x hx
  have hmem := List.of_mem_filter hx
  simp_all

/-- Lowering the owner's tries decrements exactly the session the owner's
lookup finds. -/
theorem getDb_lower (owner : String) (store : List LanternHack) :
    getLanternHackDb owner (lowerHackTriesDb owner store) =
      (getLanternHackDb owner store).map (fun h => { h with triesLeft := h.triesLeft - 1 }) := by
  unfold getLanternHackDb lowerHackTriesDb
  induction store with
  | nil => rfl
  | cons h t ih =>
    cases hb : (h.owner == owner) <;>
      simp only [List.map_cons, List.find?_cons, hb, if_true, if_false, Bool.false_eq_true,
        cond_false, cond_true, ite_true, ite_false, Option.map_some] <;>
      first
      | exact ih
      | rfl

/-- After an upsert, the upserted record is the only one left for its owner. -/
theorem mem_upsert_owner (hack h : LanternHack) (store : List LanternHack)
    (hmem : h ∈ updateLanternHackDb hack store) (how : h.owner = hack.owner) : h = hack := by
  unfold updateLanternHackDb at hmem
  rcases List.mem_cons.mp hmem with h1 | h1
  · exact h1
  · have := List.of_mem_filter h1
    simp [how] at this

/-- `manipulateStation`, reduced on a live session with a correct candidate:
the three observable branches of the source. -/
theorem manipulateStation_cases (owner password : String) (b : Bool) (env : SignalEnv)
    (store : List LanternHack) (hack : LanternHack) (cu : GameUserEntry)
    (hget : getLanternHackDb owner store = some hack)
    (hfind : hack.gameUsers.find? (fun gu => gu.isCorrect) = some cu) :
    manipulateStation password b (.ok owner) env noDbFail store =
      (if cu.password = jsToLower password ∧ hack.triesLeft > 0 then
        match (updateSignalValue env b).result with
        | .error _ => (.err { errorType := .external, name := "wrecking" }, store)
        | .ok _ => (.success b, removeLanternHackDb owner store)
      else if hack.triesLeft - 1 ≤ 0 then
        (.triesEnded (hack.triesLeft - 1),
          removeLanternHackDb owner (lowerHackTriesDb owner store))
      else
        (.failedTry (hack.triesLeft - 1) (matchesAmount password cu.password),
          lowerHackTriesDb owner store)) := by
  unfold manipulateStation
  simp only [noDbFail, hget, hfind, Bool.false_eq_true, if_false, ite_false]

/-- A lookup miss leaves the store untouched and reports `NotFound`. -/
theorem manipulateStation_unchanged_of_no_session (owner password : String) (b : Bool)
    (env : SignalEnv) (store : List LanternHack)
    (hget : getLanternHackDb owner store = none) :
    manipulateStation password b (.ok owner) env noDbFail store =
      (.err { errorType := .notFound, name := "lanternHack" }, store) := by
  unfold manipulateStation
  simp only [noDbFail, hget, Bool.false_eq_true, if_false, ite_false]

/-- A session without a correct candidate (impossible for engine-created
sessions) leaves the store untouched. -/
theorem manipulateStation_unchanged_of_no_correct (owner password : String) (b : Bool)
    (env : SignalEnv) (store : List LanternHack) (hack : LanternHack)
    (hget : getLanternHackDb owner store = some hack)
    (hfind : hack.gameUsers.find? (fun gu => gu.isCorrect) = none) :
    manipulateStation password b (.ok owner) env noDbFail store =
      (.err { errorType := .internalErr, name := "no correct game user" }, store) := by
  unfold manipulateStation
  simp only [noDbFail, hget, hfind, Bool.false_eq_true, if_false, ite_false]

/-- One attempt never raises the owner's `triesLeft`. -/
theorem attempt_triesBound (owner password : String) (b : Bool) (env : SignalEnv)
    (store : List LanternHack) :
    ∀ t', ownerTries owner
        ((manipulateStation password b (.ok owner) env noDbFail store).2) = some t' →
      ∃ t, ownerTries owner store = some t ∧ t' ≤ t := by
  intro t' ht'
  cases hget : getLanternHackDb owner store with
  | none =>
    rw [manipulateStation_unchanged_of_no_session owner password b env store hget] at ht'
    exact ⟨t', ht', le_refl t'⟩
  | some hack =>
    cases hfind : hack.gameUsers.find? (fun gu => gu.isCorrect) with
    | none =>
      rw [manipulateStation_unchanged_of_no_correct owner password b env store hack
        hget hfind] at ht'
      exact ⟨t', ht', le_refl t'⟩
    | some cu =>
      rw [manipulateStation_cases owner password b env store hack cu hget hfind] at ht'
      by_cases hc : (cu.password = jsToLower password ∧ hack.triesLeft > 0)
      · rw [if_pos hc] at ht'
        cases hres : (updateSignalValue env b).result with
        | error e =>
          rw [hres] at ht'
          exact ⟨t', ht', le_refl t'⟩
        | ok n =>
          rw [hres] at ht'
          dsimp only at ht'
          rw [ownerTries, getDb_remove] at ht'
          simp at ht'
      · rw [if_neg hc] at ht'
        by_cases htr : hack.triesLeft - 1 ≤ 0
        · rw [if_pos htr] at ht'
          dsimp only at ht'
          rw [ownerTries, getDb_remove] at ht'
          simp at ht'
        · rw [if_neg htr] at ht'
          dsimp only at ht'
          rw [ownerTries, getDb_lower, hget] at ht'
          simp at ht'
          exact ⟨hack.triesLeft, by simp [ownerTries, hget], by omega⟩

/-- A sequence of attempts never raises the owner's `triesLeft`. -/
theorem runAttempts_triesBound (owner : String) (steps : List AttemptInput) :
    ∀ (store : List LanternHack) (t' : Int),
      ownerTries owner (runAttempts owner steps store) = some t' →
      ∃ t, ownerTries owner store = some t ∧ t' ≤ t := by
  induction steps with
  | nil =>
    intro store t' h
    exact ⟨t', h, le_refl t'⟩
  | cons s rest ih =>
    intro store t' h
    rw [runAttempts, List.foldl_cons] at h
    obtain ⟨t1, h1, hle1⟩ := ih _ t' h
    obtain ⟨t, ht, hle⟩ := attempt_triesBound owner s.password s.boostingSignal s.env store t1 h1
    exact ⟨t, ht, le_trans hle1 hle⟩

/-- The shape of a successful `createLanternHack`: with the drawn prefix
`d :: ds`, the stored session flags the first drawn candidate correct. -/
theorem createLanternHack_ok_shape (r : Rand) (stationId : Nat) (owner : String)
    (triesLeft : Int) (pool : List GameUser) (store : List LanternHack)
    (d : GameUser) (ds : List GameUser)
    (hlen : ¬ pool.length < 1)
    (hdrawn : (r.shuffleGameUsers pool).take 2 = d :: ds) :
    createLanternHack r stationId owner triesLeft pool store =
      .ok ({ owner := owner, stationId := stationId,
             gameUsers :=
               { drawnGameUser r d with isCorrect := true } :: ds.map (drawnGameUser r),
             triesLeft := triesLeft },
           updateLanternHackDb
             { owner := owner, stationId := stationId,
               gameUsers :=
                 { drawnGameUser r d with isCorrect := true } :: ds.map (drawnGameUser r),
               triesLeft := triesLeft } store) := by
  rw [createLanternHack, if_neg hlen, hdrawn]
  rfl

/-- `take 2` of a non-empty list is a cons. -/
theorem take_two_cons (l : List GameUser) (hne : l ≠ []) :
    ∃ d ds, l.take 2 = d :: ds := by
  cases l with
  | nil => exact absurd rfl hne
  | cons a t =>
    cases t with
    | nil => exact ⟨a, [], rfl⟩
    | cons b t2 => exact ⟨a, [b], rfl⟩

/-- C1 (amended): for a live session, a wrong, non-exhausting guess (the
correct candidate's password differs from the lowercased guess, and the
decremented `triesLeft` is still positive) answers `{success: false,
triesLeft - 1, matches.amount}` where `matches.amount` counts the characters
of the lowercased guess whose first occurrence in the correct password equals
their first occurrence in the lowercased guess — the source's `indexOf`-based
filter, which agrees with the positional count only when no character repeats
at the tested positions.  The session survives with exactly one try
consumed. -/
theorem wrong_guess_matches (owner password : String) (b : Bool) (env : SignalEnv)
    (store : List LanternHack) (hack : LanternHack) (cu : GameUserEntry)
    (hget : getLanternHackDb owner store = some hack)
    (hfind : hack.gameUsers.find? (fun gu => gu.isCorrect) = some cu)
    (hwrong : ¬ cu.password = jsToLower password)
    (hleft : hack.triesLeft - 1 > 0) :
    manipulateStation password b (.ok owner) env noDbFail store =
      (.failedTry (hack.triesLeft - 1) (matchesAmount password cu.password),
        lowerHackTriesDb owner store) := by
  rw [manipulateStation_cases owner password b env store hack cu hget hfind]
  rw [if_neg (by tauto), if_neg (by omega)]

/-- C1 counterexample: with correct password "ab" and guess "aa" (3 tries
left), the source answers `matches.amount = 2`, while the claimed positional
count is 1; in particular `matches.amount` reaches `len(c)` on a wrong guess
of equal length, refuting the claimed iff. -/
theorem matches_counterexample :
    (manipulateStation "aa" true (.ok "o") envErrSample noDbFail
        [{ owner := "o", stationId := 1,
           gameUsers := [{ userName := "u", password := "ab",
                           passwordHint := { index := 0, character := 'a' },
                           isCorrect := true }],
           triesLeft := 3 }]).1 = .failedTry 2 2 ∧
    positionalMatchCount "aa" "ab" = 1 ∧
    matchesAmount "aa" "ab" = 2 ∧
    "ab".length = 2 ∧ "aa" ≠ "ab" := by
  refine ⟨?_, ?_, ?_, ?_, ?_⟩ <;> decide

/-- C1 witness: the amended law at the fixture session with guess "zz". -/
theorem wrong_guess_matches_witness :
    manipulateStation "zz" true (.ok "o") envErrSample noDbFail sampleStore =
      (.failedTry (sampleHack.triesLeft - 1) (matchesAmount "zz" sampleCu.password),
        lowerHackTriesDb "o" sampleStore) :=
  wrong_guess_matches "o" "zz" true envErrSample sampleStore sampleHack sampleCu (by decide)
    (by decide) (by decide) (by decide)

/-- C5: on a correct, non-spent guess, a failing signal adjustment is reported
as an error with the session store untouched (no try consumed, session kept);
a successful adjustment removes the session and answers
`{success: true, boostingSignal}`. -/
theorem success_path_frame (owner password : String) (b : Bool) (env : SignalEnv)
    (store : List LanternHack) (hack : LanternHack) (cu : GameUserEntry)
    (hget : getLanternHackDb owner store = some hack)
    (hfind : hack.gameUsers.find? (fun gu => gu.isCorrect) = some cu)
    (hpw : cu.password = jsToLower password)
    (htries : hack.triesLeft > 0) :
    (∀ e, (updateSignalValue env b).result = .error e →
      manipulateStation password b (.ok owner) env noDbFail store =
        (.err { errorType := .external, name := "wrecking" }, store)) ∧
    (∀ n, (updateSignalValue env b).result = .ok n →
      manipulateStation password b (.ok owner) env noDbFail store =
        (.success b, removeLanternHackDb owner store) ∧
      getLanternHackDb owner (removeLanternHackDb owner store) = none) := by
  rw [manipulateStation_cases owner password b env store hack cu hget hfind,
    if_pos ⟨hpw, htries⟩]
  constructor
  · intro e he
    rw [he]
  · intro n hn
    rw [hn]
    exact ⟨rfl, getDb_remove owner store⟩

/-- C5 witness: the fixture session with its correct password "ab": a failed
station read reports an error and leaves the store unchanged; a fully
successful adjustment removes the session and reports success. -/
theorem success_path_frame_witness :
    manipulateStation "ab" true (.ok "o") envErrSample noDbFail sampleStore =
      (.err { errorType := .external, name := "wrecking" }, sampleStore) ∧
    (manipulateStation "ab" true (.ok "o") envOkSample noDbFail sampleStore =
      (.success true, removeLanternHackDb "o" sampleStore) ∧
     getLanternHackDb "o" (removeLanternHackDb "o" sampleStore) = none) :=
  ⟨(success_path_frame "o" "ab" true envErrSample sampleStore sampleHack sampleCu (by decide)
      (by decide) (by decide) (by decide)).1
      { errorType := .notFound, name := "station" } rfl,
   (success_path_frame "o" "ab" true envOkSample sampleStore sampleHack sampleCu (by decide)
      (by decide) (by decide) (by decide)).2 (updateSignalValueCalc 100 true) rfl⟩

/-- C6: per attempt, a surviving session's `triesLeft` never increases and a
failed-try answer carries exactly `triesLeft - 1`; the session is deleted
exactly on success or when the decremented tries reach 0; and across any
sequence of attempts the surviving `triesLeft` is bounded by the initial
one. -/
theorem tries_monotone_deletion :
    (∀ (owner password : String) (b : Bool) (env : SignalEnv) (store : List LanternHack)
       (hack : LanternHack) (cu : GameUserEntry),
      getLanternHackDb owner store = some hack →
      hack.gameUsers.find? (fun gu => gu.isCorrect) = some cu →
      ((∀ hack', getLanternHackDb owner
          ((manipulateStation password b (.ok owner) env noDbFail store).2) = some hack' →
          hack'.triesLeft ≤ hack.triesLeft) ∧
       (∀ t m, (manipulateStation password b (.ok owner) env noDbFail store).1 =
          .failedTry t m → t = hack.triesLeft - 1) ∧
       (∀ t, (manipulateStation password b (.ok owner) env noDbFail store).1 =
          .triesEnded t → t = hack.triesLeft - 1) ∧
       (getLanternHackDb owner
           ((manipulateStation password b (.ok owner) env noDbFail store).2) = none ↔
         ((∃ b2, (manipulateStation password b (.ok owner) env noDbFail store).1 =
             .success b2) ∨
          (¬(cu.password = jsToLower password ∧ hack.triesLeft > 0) ∧
            hack.triesLeft - 1 ≤ 0))))) ∧
    (∀ (owner : String) (steps : List AttemptInput) (store : List LanternHack) (t' : Int),
      ownerTries owner (runAttempts owner steps store) = some t' →
      ∃ t, ownerTries owner store = some t ∧ t' ≤ t) := by
  constructor
  · intro owner password b env store hack cu hget hfind
    rw [manipulateStation_cases owner password b env store hack cu hget hfind]
    by_cases hc : (cu.password = jsToLower password ∧ hack.triesLeft > 0)
    · rw [if_pos hc]
      cases hres : (updateSignalValue env b).result with
      | error e =>
        dsimp only
        refine ⟨?_, ?_, ?_, ?_⟩
        · intro hack' h'
          rw [hget] at h'
          exact le_of_eq (congrArg LanternHack.triesLeft (Option.some.inj h')).symm
        · intro t m h
          exact absurd h (by simp)
        · intro t h
          exact absurd h (by simp)
        · rw [hget]
          simp [hc]
      | ok n =>
        dsimp only
        refine ⟨?_, ?_, ?_, ?_⟩
        · intro hack' h'
          rw [getDb_remove] at h'
          exact absurd h' (by simp)
        · intro t m h
          exact absurd h (by simp)
        · intro t h
          exact absurd h (by simp)
        · rw [getDb_remove]
          simp
    · rw [if_neg hc]
      by_cases htr : hack.triesLeft - 1 ≤ 0
      · rw [if_pos htr]
        dsimp only
        refine ⟨?_, ?_, ?_, ?_⟩
        · intro hack' h'
          rw [getDb_remove] at h'
          exact absurd h' (by simp)
        · intro t m h
          exact absurd h (by simp)
        · intro t h
          exact Option.some.inj (by simpa using h) ▸ rfl
        · rw [getDb_remove]
          simp [hc, htr]
      · rw [if_neg htr]
        dsimp only
        refine ⟨?_, ?_, ?_, ?_⟩
        · intro hack' h'
          rw [getDb_lower, hget] at h'
          simp only [Option.map] at h'
          have hinj := Option.some.inj h'
          have h2 : hack'.triesLeft = hack.triesLeft - 1 := by rw [← hinj]
          omega
        · intro t m h
          simp only [AttemptResult.failedTry.injEq] at h
          omega
        · intro t h
          exact absurd h (by simp)
        · rw [getDb_lower, hget]
          constructor
          · intro h
            exact absurd h (by simp)
          · intro h
            rcases h with ⟨b2, hb2⟩ | ⟨_, h2⟩
            · exact absurd hb2 (by simp)
            · omega
  · exact fun owner steps => runAttempts_triesBound owner steps

/-- C6 witness: a wrong guess against the one-try fixture deletes the session;
after one wrong guess against the three-try fixture the surviving tries (2)
are bounded by the initial budget (3). -/
theorem tries_monotone_deletion_witness :
    getLanternHackDb "o"
        ((manipulateStation "zz" true (.ok "o") envErrSample noDbFail exhaustStore).2) = none ∧
    ownerTries "o" sampleStore = some 3 ∧ (2 : Int) ≤ 3 := by
  refine ⟨?_, by decide, ?_⟩
  · exact (tries_monotone_deletion.1 "o" "zz" true envErrSample exhaustStore exhaustHack
      sampleCu (by decide) (by decide)).2.2.2.mpr (Or.inr ⟨by decide, by decide⟩)
  · obtain ⟨t, ht, hle⟩ := tries_monotone_deletion.2 "o"
      [{ password := "zz", boostingSignal := true, env := envErrSample }] sampleStore 2
      (by decide)
    have hsome : ownerTries "o" sampleStore = some 3 := by decide
    rw [hsome] at ht
    have := Option.some.inj ht
    omega

/-- C7 (amended): session creation fails with `NotFound` exactly when the
station's pool is empty; a created session holds `min 2 poolSize` candidates
(so a single-candidate pool yields one, not two), drawn from the pool, exactly
one of them — the first of the randomized draw — flagged `isCorrect`, and is
upserted under its owner with the requested station and tries. -/
theorem createLanternHack_pool (r : Rand) (stationId : Nat) (owner : String)
    (triesLeft : Int) (pool : List GameUser) (store : List LanternHack) :
    (createLanternHack r stationId owner triesLeft pool store =
        .error { errorType := .notFound, name := "game users" } ↔ pool = []) ∧
    (List.Perm (r.shuffleGameUsers pool) pool →
      ∀ hack store',
        createLanternHack r stationId owner triesLeft pool store = .ok (hack, store') →
        hack.gameUsers.length = min 2 pool.length ∧
        hack.gameUsers.countP (fun gu => gu.isCorrect) = 1 ∧
        (∀ gu ∈ hack.gameUsers, ∃ src ∈ pool, gu.userName = src.userName) ∧
        hack.stationId = stationId ∧ hack.owner = owner ∧ hack.triesLeft = triesLeft ∧
        store' = updateLanternHackDb hack store ∧
        getLanternHackDb owner store' = some hack) := by
  by_cases hlen : pool.length < 1
  · have hnil : pool = [] := by
      cases pool with
      | nil => rfl
      | cons a l => simp at hlen
    constructor
    · rw [createLanternHack, if_pos hlen]
      simp [hnil]
    · intro hperm hack store' h
      rw [createLanternHack, if_pos hlen] at h
      exact absurd h (by simp)
  · constructor
    · rw [createLanternHack, if_neg hlen]
      constructor
      · intro h
        exact absurd h (by simp)
      · intro hnil
        rw [hnil] at hlen
        simp at hlen
    · intro hperm hack store' hok
      have hpoollen : (r.shuffleGameUsers pool).length = pool.length := hperm.length_eq
      have hshne : r.shuffleGameUsers pool ≠ [] := by
        intro hh
        rw [hh] at hpoollen
        simp only [List.length_nil] at hpoollen
        omega
      obtain ⟨d, ds, hdrawn⟩ := take_two_cons _ hshne
      rw [createLanternHack_ok_shape r stationId owner triesLeft pool store d ds hlen
        hdrawn] at hok
      simp only [Except.ok.injEq, Prod.mk.injEq] at hok
      obtain ⟨hh, hs⟩ := hok
      have hdmem : ∀ x ∈ d :: ds, x ∈ pool := by
        intro x hx
        have : x ∈ (r.shuffleGameUsers pool).take 2 := hdrawn ▸ hx
        exact hperm.mem_iff.mp (List.mem_of_mem_take this)
      have hlen2 : (d :: ds).length = min 2 pool.length := by
        rw [← hdrawn, List.length_take, hpoollen]
      subst hh
      refine ⟨?_, ?_, ?_, rfl, rfl, rfl, hs.symm, ?_⟩
      · simp only [List.length_cons, List.length_map] at hlen2 ⊢
        omega
      · simp only [List.countP_cons]
        have hz : (ds.map (drawnGameUser r)).countP (fun gu => gu.isCorrect) = 0 := by
          rw [List.countP_eq_zero]
          intro a ha
          obtain ⟨y, hy, hfy⟩ := List.mem_map.mp ha
          rw [← hfy]
          simp [drawnGameUser]
        rw [hz]
        simp
      · intro gu hgu
        rcases List.mem_cons.mp hgu with h1 | h1
        · refine ⟨d, hdmem d (by simp), ?_⟩
          rw [h1]
          rfl
        · obtain ⟨y, hy, hfy⟩ := List.mem_map.mp h1
          refine ⟨y, hdmem y (by simp [hy]), ?_⟩
          rw [← hfy]
          rfl
      · rw [hs.symm]
        exact getDb_upsert _ store

/-- C7 counterexample: a pool with exactly one candidate passes the
`fewer than 1` guard, and the created session carries one game user — not the
claimed exactly 2. -/
theorem one_candidate_counterexample :
    createLanternHack idRand 1 "o" 3 [{ userName := "u", passwords := ["pw"] }] [] =
      .ok ({ owner := "o", stationId := 1,
             gameUsers := [{ userName := "u", password := "pw",
                             passwordHint := { index := 0, character := 'p' },
                             isCorrect := true }],
             triesLeft := 3 },
           [{ owner := "o", stationId := 1,
              gameUsers := [{ userName := "u", password := "pw",
                              passwordHint := { index := 0, character := 'p' },
                              isCorrect := true }],
              triesLeft := 3 }]) ∧
    ([{ userName := "u", password := "pw",
        passwordHint := { index := 0, character := 'p' },
        isCorrect := true }] : List GameUserEntry).length = 1 ∧ (1 : Nat) ≠ 2 := by
  refine ⟨?_, ?_, ?_⟩ <;> decide

/-- C7 witness: an empty pool fails with `NotFound`, and the two-candidate
pool yields a session with `min 2 2 = 2` candidates, exactly one correct. -/
theorem createLanternHack_pool_witness :
    createLanternHack idRand 5 "o" 3 [] [] =
      .error { errorType := .notFound, name := "game users" } ∧
    hackTwo.gameUsers.length = min 2 poolTwo.length ∧
    hackTwo.gameUsers.countP (fun gu => gu.isCorrect) = 1 := by
  refine ⟨?_, ?_, ?_⟩
  · exact (createLanternHack_pool idRand 5 "o" 3 [] []).1.mpr rfl
  · exact ((createLanternHack_pool idRand 5 "o" 3 poolTwo []).2 (List.Perm.refl _)
      hackTwo (updateLanternHackDb hackTwo []) (by decide)).1
  · exact ((createLanternHack_pool idRand 5 "o" 3 poolTwo []).2 (List.Perm.refl _)
      hackTwo (updateLanternHackDb hackTwo []) (by decide)).2.1

/-- C9: requesting a hack for the station of the live session rebuilds the
payload from the stored session without touching the store — any two such
calls in a row return the stored `triesLeft` and the stored correct
candidate's identity and hint; requesting a different station regenerates
through `createLanternHack` with the configured budget and a freshly drawn
hint, and the upsert discards the old session (every record left for the owner
is the new one). -/
theorem session_reuse_and_switch :
    (∀ (r1 r2 : Rand) (sid : Nat) (owner : String) (pool : List GameUser)
       (fake : List String) (store : List LanternHack) (hack : LanternHack)
       (cu : GameUserEntry),
      getLanternHackDb owner store = some hack →
      hack.stationId = sid →
      hack.gameUsers.find? (fun gu => gu.isCorrect) = some cu →
      getLanternHack r1 sid (.ok owner) pool fake store =
        (.ok { passwords := (r1.shuffleFake fake).take 13
                 ++ hack.gameUsers.map (fun gu => gu.password)
               triesLeft := hack.triesLeft
               userName := cu.userName
               passwordHint := cu.passwordHint
               stationId := hack.stationId }, store) ∧
      getLanternHack r2 sid (.ok owner) pool fake store =
        (.ok { passwords := (r2.shuffleFake fake).take 13
                 ++ hack.gameUsers.map (fun gu => gu.password)
               triesLeft := hack.triesLeft
               userName := cu.userName
               passwordHint := cu.passwordHint
               stationId := hack.stationId }, store)) ∧
    (∀ (r : Rand) (sid2 : Nat) (owner : String) (pool : List GameUser)
       (fake : List String) (store : List LanternHack) (hack : LanternHack)
       (d : GameUser) (ds : List GameUser),
      getLanternHackDb owner store = some hack →
      hack.stationId ≠ sid2 →
      (r.shuffleGameUsers pool).take 2 = d :: ds →
      ¬ pool.length < 1 →
      createLanternHack r sid2 owner hackingTriesAmount pool store =
        .ok ({ owner := owner, stationId := sid2,
               gameUsers :=
                 { drawnGameUser r d with isCorrect := true } :: ds.map (drawnGameUser r),
               triesLeft := hackingTriesAmount },
             updateLanternHackDb
               { owner := owner, stationId := sid2,
                 gameUsers :=
                   { drawnGameUser r d with isCorrect := true } :: ds.map (drawnGameUser r),
                 triesLeft := hackingTriesAmount } store) ∧
      getLanternHack r sid2 (.ok owner) pool fake store =
        (.ok { passwords := (r.shuffleFake fake).take 13 ++
                 ((({ drawnGameUser r d with isCorrect := true } : GameUserEntry) ::
                   ds.map (drawnGameUser r)).map (fun gu => gu.password))
               triesLeft := hackingTriesAmount
               userName := (drawnGameUser r d).userName
               passwordHint := (drawnGameUser r d).passwordHint
               stationId := sid2 },
          updateLanternHackDb
            { owner := owner, stationId := sid2,
              gameUsers :=
                { drawnGameUser r d with isCorrect := true } :: ds.map (drawnGameUser r),
              triesLeft := hackingTriesAmount } store) ∧
      getLanternHackDb owner
          (updateLanternHackDb
            { owner := owner, stationId := sid2,
              gameUsers :=
                { drawnGameUser r d with isCorrect := true } :: ds.map (drawnGameUser r),
              triesLeft := hackingTriesAmount } store) =
        some { owner := owner, stationId := sid2,
               gameUsers :=
                 { drawnGameUser r d with isCorrect := true } :: ds.map (drawnGameUser r),
               triesLeft := hackingTriesAmount } ∧
      (∀ h ∈ updateLanternHackDb
          { owner := owner, stationId := sid2,
            gameUsers :=
              { drawnGameUser r d with isCorrect := true } :: ds.map (drawnGameUser r),
            triesLeft := hackingTriesAmount } store,
        h.owner = owner →
        h = { owner := owner, stationId := sid2,
              gameUsers :=
                { drawnGameUser r d with isCorrect := true } :: ds.map (drawnGameUser r),
              triesLeft := hackingTriesAmount })) := by
  constructor
  · intro r1 r2 sid owner pool fake store hack cu hget hsid hfind
    have hcall : ∀ rr : Rand,
        getLanternHack rr sid (.ok owner) pool fake store =
          (.ok { passwords := (rr.shuffleFake fake).take 13
                   ++ hack.gameUsers.map (fun gu => gu.password)
                 triesLeft := hack.triesLeft
                 userName := cu.userName
                 passwordHint := cu.passwordHint
                 stationId := hack.stationId }, store) := by
      intro rr
      simp only [getLanternHack, hget]
      rw [if_neg (by simp [hsid])]
      simp only [createHackData, hfind]
    exact ⟨hcall r1, hcall r2⟩
  · intro r sid2 owner pool fake store hack d ds hget hneq hdrawn hlen
    have hok := createLanternHack_ok_shape r sid2 owner hackingTriesAmount pool store d ds
      hlen hdrawn
    have hfindnew : (({ drawnGameUser r d with isCorrect := true } : GameUserEntry) ::
        ds.map (drawnGameUser r)).find? (fun gu => gu.isCorrect) =
          some { drawnGameUser r d with isCorrect := true } :=
      List.find?_cons_of_pos _ rfl
    refine ⟨hok, ?_, getDb_upsert _ store, ?_⟩
    · simp only [getLanternHack, hget]
      rw [if_pos hneq, hok]
      simp only [createHackData, hfindnew]
    · intro h hmem how
      exact mem_upsert_owner _ h store hmem how

/-- C9 witness: re-requesting station 1 for the fixture session returns the
stored tries and hint with the store unchanged, while requesting station 2
regenerates via `createLanternHack` and leaves the new session as the owner's
only record. -/
theorem session_reuse_and_switch_witness :
    getLanternHack idRand 1 (.ok "o") poolTwo ["x"] sampleStore =
      (.ok { passwords := (idRand.shuffleFake ["x"]).take 13
               ++ sampleHack.gameUsers.map (fun gu => gu.password)
             triesLeft := sampleHack.triesLeft
             userName := sampleCu.userName
             passwordHint := sampleCu.passwordHint
             stationId := sampleHack.stationId }, sampleStore) ∧
    createLanternHack idRand 2 "o" hackingTriesAmount poolTwo sampleStore =
      .ok (switchedHack, updateLanternHackDb switchedHack sampleStore) ∧
    getLanternHackDb "o" (updateLanternHackDb switchedHack sampleStore) = some switchedHack :=
  ⟨(session_reuse_and_switch.1 idRand idRand 1 "o" poolTwo ["x"] sampleStore sampleHack
      sampleCu (by decide) (by decide) (by decide)).1,
   (session_reuse_and_switch.2 idRand 2 "o" poolTwo ["x"] sampleStore sampleHack gameUserU
      [gameUserV] (by decide) (by decide) rfl (by decide)).1,
   (session_reuse_and_switch.2 idRand 2 "o" poolTwo ["x"] sampleStore sampleHack gameUserU
      [gameUserV] (by decide) (by decide) rfl (by decide)).2.2.1⟩

/-- C10: on the success path (correct guess, tries left), every failure of the
signal adjustment — station lookup error of any kind, storage write failure,
or missing external-sync host/key — is observable only as the single
`External` error named "wrecking". -/
theorem adjust_error_masked (owner password : String) (b : Bool) (env : SignalEnv)
    (store : List LanternHack) (hack : LanternHack) (cu : GameUserEntry) (e : Err)
    (hget : getLanternHackDb owner store = some hack)
    (hfind : hack.gameUsers.find? (fun gu => gu.isCorrect) = some cu)
    (hpw : cu.password = jsToLower password)
    (htries : hack.triesLeft > 0)
    (hsrc : env.getStationResult = .error e ∨ env.writeFails = true ∨
      (env.hackingApiHost && env.hackingApiKey) = false) :
    manipulateStation password b (.ok owner) env noDbFail store =
      (.err { errorType := .external, name := "wrecking" }, store) := by
  have hres : ∃ e2, (updateSignalValue env b).result = .error e2 := by
    unfold updateSignalValue
    rcases hsrc with h | h | h
    · rw [h]
      exact ⟨e, rfl⟩
    · cases hst : env.getStationResult with
      | error e2 => exact ⟨e2, rfl⟩
      | ok st =>
        dsimp only
        rw [if_pos h]
        exact ⟨{ errorType := .storage, name := "updateSignalValue" }, rfl⟩
    · cases hst : env.getStationResult with
      | error e2 => exact ⟨e2, rfl⟩
      | ok st =>
        dsimp only
        by_cases hw : env.writeFails
        · rw [if_pos hw]
          exact ⟨{ errorType := .storage, name := "updateSignalValue" }, rfl⟩
        · rw [if_neg hw, if_neg (by simp [h])]
          exact ⟨{ errorType := .internalErr, name := "hacking api host or key not set " }, rfl⟩
  obtain ⟨e2, h2⟩ := hres
  rw [manipulateStation_cases owner password b env store hack cu hget hfind,
    if_pos ⟨hpw, htries⟩, h2]

/-- C10 witness: with the external-sync key unconfigured (an `Internal`
failure underneath), the fixture's correct guess observes exactly
`External("wrecking")` and the store is unchanged. -/
theorem adjust_error_masked_witness :
    manipulateStation "ab" true (.ok "o") envNoKeySample noDbFail sampleStore =
      (.err { errorType := .external, name := "wrecking" }, sampleStore) :=
  adjust_error_masked "o" "ab" true envNoKeySample sampleStore sampleHack sampleCu
    { errorType := .notFound, name := "ignored" } (by decide) (by decide) (by decide)
    (by decide) (Or.inr (Or.inr rfl))

end RoleHaven
